import Mathlib

/-!
Shallow embedding of the clawchat-cli gateway core (Go) and verification of
its specification claims.

Source files embedded:
- `internal/gateway/device.go` — persistent ed25519 device identity.
- the gateway WebSocket client (`Client`): handshake, call correlation,
  event dispatch.
- `internal/gateway/chat.go` — history/content normalization.
- `internal/gateway/zeroclaw.go` — headless (ZeroClaw) backend.

Modelling conventions:
- Go `any` values produced by `encoding/json` are modelled by `JVal`;
  objects are field lists, looked up by first match (Go maps have unique
  keys, so the order imposed by the list never matters for lookups).
- Go type assertions `v, _ := x.(T)` become `Option` getters defaulted to
  the Go zero value.
- Go standard-library cryptographic primitives (sha256, base64url,
  ed25519) are modelled symbolically by concrete executable functions that
  have exactly the properties the client relies on (determinism,
  injectivity, encode/decode round trip, sign/verify correspondence); the
  repository code treats them as black boxes.
- Channels (`chan response`) are modelled by slot identifiers plus explicit
  delivery lists; time (`time.Now`) is an explicit parameter.
-/

namespace ClawChat

/-- JSON-like value: the model of Go `any` after `json.Unmarshal`.
Objects are field lists in document order. -/
inductive JVal where
  | str (s : String)
  | num (n : Int)
  | bool (b : Bool)
  | arr (elems : List JVal)
  | obj (fields : List (String × JVal))
  | null
deriving Repr

/-- Go type assertion `v, ok := x.(string)`. -/
def JVal.asString : JVal → Option String
  | .str s => some s
  | _ => none

/-- Go type assertion `v, ok := x.(bool)`. -/
def JVal.asBool : JVal → Option Bool
  | .bool b => some b
  | _ => none

/-- Go type assertion `v, ok := x.(map[string]any)`. -/
def JVal.asObj : JVal → Option (List (String × JVal))
  | .obj fields => some fields
  | _ => none

/-- Go type assertion `v, ok := x.([]any)`. -/
def JVal.asArr : JVal → Option (List JVal)
  | .arr elems => some elems
  | _ => none

/-- Map indexing `m[k]` on a decoded JSON object. -/
def lookupField (fields : List (String × JVal)) (k : String) : Option JVal :=
  List.lookup k fields

/-- Go `s, _ := m[k].(string)`: missing key or wrong type yields `""`. -/
def getStr (fields : List (String × JVal)) (k : String) : String :=
  ((lookupField fields k).bind JVal.asString).getD ""

/-! ## Headless (ZeroClaw) backend — `internal/gateway/zeroclaw.go`

The mutable state relevant to frame dispatch is the accumulated
`streamBuf : String`.  `dispatchFrame` consumes one decoded frame and
produces the new buffer plus the list of `onEvent` invocations it makes
(each an event name with a payload object). -/

/-- One `onEvent(event, payload)` invocation. -/
structure Emit where
  event : String
  payload : List (String × JVal)
deriving Repr

/-- The `"chat"` payload emitted for a delta, as built in
`ZeroClawClient.dispatchFrame` (cases `chunk` and `tool_call`). -/
def zcDeltaPayload (content : String) : List (String × JVal) :=
  [("state", .str "delta"),
   ("message", .obj [("content", .str content)]),
   ("runId", .str "zc-local")]

/-- The `"chat"` payload emitted for a final (case `done`). -/
def zcFinalPayload (content : String) : List (String × JVal) :=
  [("state", .str "final"),
   ("message", .obj [("content", .str content)]),
   ("runId", .str "zc-local")]

/-- The `"chat"` payload emitted for a server error (case `error`). -/
def zcErrorPayload (msg : String) : List (String × JVal) :=
  [("state", .str "error"),
   ("errorMessage", .str msg),
   ("runId", .str "zc-local")]

/-- `ZeroClawClient.dispatchFrame`: translate one ZeroClaw server frame,
given the current `streamBuf`; returns the new `streamBuf` and the events
emitted.  (The Go receiver's `onEvent` is assumed registered; with a nil
handler the function returns before touching any state.) -/
def dispatchFrame (streamBuf : String) (frame : List (String × JVal)) :
    String × List Emit :=
  let typ := getStr frame "type"
  if typ = "chunk" then
    let token := getStr frame "content"
    let accumulated := streamBuf ++ token
    (accumulated, [⟨"chat", zcDeltaPayload accumulated⟩])
  else if typ = "done" then
    let fullResponse := getStr frame "full_response"
    let fullResponse := if fullResponse = "" then streamBuf else fullResponse
    ("", [⟨"chat", zcFinalPayload fullResponse⟩])
  else if typ = "error" then
    let msg := getStr frame "message"
    ("", [⟨"chat", zcErrorPayload msg⟩])
  else if typ = "tool_call" then
    let note := "[calling " ++ getStr frame "name" ++ "…]"
    (note, [⟨"chat", zcDeltaPayload note⟩])
  else if typ = "tool_result" then
    ("", [])
  else
    (streamBuf, [])

/-- Run `dispatchFrame` over a sequence of frames, collecting all emitted
events (the read loop feeding `dispatchFrame` one frame at a time). -/
def dispatchFrames (streamBuf : String) (frames : List (List (String × JVal))) :
    String × List Emit :=
  frames.foldl
    (fun acc frame =>
      let step := dispatchFrame acc.1 frame
      (step.1, acc.2 ++ step.2))
    (streamBuf, [])

/-- The outbound frame written by `ZeroClawClient.SendMessage`. -/
def sendMessageFrame (text : String) : List (String × JVal) :=
  [("type", .str "message"), ("content", .str text)]

/-- `ZeroClawClient.SendMessage`: resets the stream accumulator, writes the
`message` frame, returns the synthetic run id `"zc-local"`.  Modelled as
(new streamBuf, outbound frame, run id); the previous buffer is discarded
unconditionally. -/
def zcSendMessage (streamBuf text : String) :
    String × List (String × JVal) × String :=
  ("", sendMessageFrame text, "zc-local")

/-! ## Device identity — `internal/gateway/device.go`

The Go standard-library crypto primitives are modelled symbolically by
concrete executable functions with exactly the properties the repository
code relies on. -/

/-- Symbolic model of `base64.RawURLEncoding.EncodeToString`: one byte per
character, shifted by 48 so that some characters fall outside the image
(letting malformed stored key material be represented).  Deterministic and
round-tripping with `base64URLDecode` on byte lists. -/
def base64URLEncode (b : List Nat) : String :=
  String.mk (b.map (fun n => Char.ofNat (n + 48)))

/-- Symbolic model of `base64.RawURLEncoding.DecodeString`: fails on any
string containing a character outside the encoding's image. -/
def base64URLDecode (s : String) : Option (List Nat) :=
  if s.toList.all (fun c => 48 ≤ c.toNat) then
    some (s.toList.map (fun c => c.toNat - 48))
  else
    none

/-- Symbolic model of hex-encoded SHA-256
(`fmt.Sprintf("%x", sha256.Sum256(pubKey))`): deterministic, injective, and
never the empty string — the only properties the identity code relies
on. -/
def sha256Hex (b : List Nat) : String :=
  "sha256:" ++ String.mk (b.map (fun n => Char.ofNat (n + 48)))

/-- `deviceIDFromPubKey`: the device ID is the hash of the public key. -/
def deviceIDFromPubKey (pubKey : List Nat) : String :=
  sha256Hex pubKey

/-- Byte view of a string (Go `[]byte(payload)`); symbolic, one byte per
character. -/
def strBytes (s : String) : List Nat :=
  s.toList.map (fun c => c.toNat % 256)

/-- Symbolic ed25519 signing.  A Go ed25519 private key is
seed ++ publicKey (64 bytes) and `Public()` is its last 32 bytes; a
signature is determined by the key's public half and the message. -/
def ed25519Sign (privKey : List Nat) (msg : String) : List Nat :=
  privKey.drop 32 ++ strBytes msg

/-- Symbolic ed25519 verification: succeeds exactly on the signature
produced over the same message by the private key whose public half is
`pubKey`. -/
def ed25519Verify (pubKey : List Nat) (msg : String) (sig : List Nat) : Bool :=
  sig == pubKey ++ strBytes msg

/-- The persisted identity record, JSON object
`{version, deviceId, publicKey, privateKey, createdAtMs}`. -/
structure deviceIdentity where
  version : Nat
  deviceID : String
  publicKey : String
  privateKey : String
  createdAtMs : Int
deriving Repr, DecidableEq

/-- The result of reading and JSON-decoding the identity file at
`deviceKeyPath()`. -/
inductive StoredFile where
  | absent
  | unparsable
  | parsed (id : deviceIdentity)
deriving Repr, DecidableEq

/-- The integrity verification applied to a loaded identity file
(`loadOrCreateDevice` lines 36–48): version 1, nonempty deviceId, and a
decodable public key whose hash equals the stored deviceId. -/
def storedIdentityValid (id : deviceIdentity) : Bool :=
  id.version == 1 && id.deviceID != "" &&
    (match base64URLDecode id.publicKey with
     | some pubBytes => deviceIDFromPubKey pubBytes == id.deviceID
     | none => false)

/-- The fresh identity built from a generated keypair (the Go ed25519
private key is seed ++ publicKey). -/
def freshDevice (seed pubKey : List Nat) (nowMs : Int) : deviceIdentity :=
  { version := 1
    deviceID := deviceIDFromPubKey pubKey
    publicKey := base64URLEncode pubKey
    privateKey := base64URLEncode (seed ++ pubKey)
    createdAtMs := nowMs }

/-- What `loadOrCreateDevice` returns and leaves on disk.  `errOut` is the
function's error result; key generation is taken to succeed (its only
error path), and a failed persistence write is discarded by the code
(`_ = os.WriteFile(...)`), so no path below produces an error. -/
structure LoadResult where
  identity : deviceIdentity
  fileAfter : StoredFile
  errOut : Option String
deriving Repr, DecidableEq

/-- `loadOrCreateDevice`: return the stored identity when it passes the
integrity check; otherwise generate a fresh identity from the supplied
keypair and persist it (on a failed write the old file remains and no
error is returned). -/
def loadOrCreateDevice (stored : StoredFile) (seed pubKey : List Nat)
    (nowMs : Int) (writeOk : Bool) : LoadResult :=
  match stored with
  | .parsed id =>
      if storedIdentityValid id then ⟨id, stored, none⟩
      else
        ⟨freshDevice seed pubKey nowMs,
         if writeOk then .parsed (freshDevice seed pubKey nowMs) else stored,
         none⟩
  | _ =>
      ⟨freshDevice seed pubKey nowMs,
       if writeOk then .parsed (freshDevice seed pubKey nowMs) else stored,
       none⟩

/-- The pipe-delimited signature payload of `deviceIdentity.sign`
(device.go lines 88–98):
v2, deviceId, clientId "cli", clientMode "cli", role, comma-joined scopes,
signed-at, token, nonce. -/
def signPayload (deviceID role scopesStr signedAtStr token nonce : String) :
    String :=
  String.intercalate "|"
    ["v2", deviceID, "cli", "cli", role, scopesStr, signedAtStr, token, nonce]

/-- `deviceIdentity.sign`: decode the private key (a decode failure is the
Go error return, here `none`), build the payload with the epoch-millisecond
timestamp (`time.Now`, an explicit parameter here), sign it, and return the
base64url signature together with the timestamp. -/
def deviceIdentity.sign (id : deviceIdentity) (nonce token role : String)
    (scopes : List String) (signedAtMs : Int) : Option (String × Int) :=
  match base64URLDecode id.privateKey with
  | none => none
  | some privBytes =>
      some (base64URLEncode (ed25519Sign privBytes
        (signPayload id.deviceID role (String.intercalate "," scopes)
          (toString signedAtMs) token nonce)), signedAtMs)

/-- `Char.ofNat` inverts `Char.toNat` below the surrogate range. -/
lemma char_toNat_ofNat {n : Nat} (h : n < 55296) : (Char.ofNat n).toNat = n := by
  have hv : n.isValidChar := Or.inl h
  rw [Char.ofNat, dif_pos hv]
  simp [Char.ofNatAux, Char.toNat, UInt32.toNat, BitVec.toNat_ofNatLt]

/-- The symbolic base64url model round-trips on byte lists. -/
lemma base64URL_roundtrip (b : List Nat) (hb : ∀ n ∈ b, n < 256) :
    base64URLDecode (base64URLEncode b) = some b := by
  unfold base64URLEncode base64URLDecode
  have htoList : (String.mk (b.map (fun n => Char.ofNat (n + 48)))).toList
      = b.map (fun n => Char.ofNat (n + 48)) := rfl
  rw [htoList]
  have hchar : ∀ n ∈ b, (Char.ofNat (n + 48)).toNat = n + 48 := by
    intro n hn
    exact char_toNat_ofNat (by have := hb n hn; omega)
  have hall : (b.map (fun n => Char.ofNat (n + 48))).all
      (fun c => 48 ≤ c.toNat) = true := by
    rw [List.all_eq_true]
    intro c hc
    rcases List.mem_map.mp hc with ⟨n, hn, rfl⟩
    rw [hchar n hn]
    simp
  rw [if_pos hall, List.map_map]
  have hmap : b.map ((fun c => c.toNat - 48) ∘ fun n => Char.ofNat (n + 48))
      = b.map id := by
    refine List.map_congr_left ?_
    intro n hn
    simp [Function.comp, hchar n hn]
  rw [hmap, List.map_id]

/-- The symbolic hash is never the empty string. -/
lemma sha256Hex_ne_empty (b : List Nat) : sha256Hex b ≠ "" := by
  intro h
  have hlen := congrArg String.length h
  rw [sha256Hex, String.length_append] at hlen
  have h7 : ("sha256:" : String).length = 7 := rfl
  have h0 : ("" : String).length = 0 := rfl
  rw [h7, h0] at hlen
  omega

/-- A freshly generated identity passes the load-time integrity check. -/
lemma freshDevice_valid (seed pubKey : List Nat) (nowMs : Int)
    (hb : ∀ n ∈ pubKey, n < 256) :
    storedIdentityValid (freshDevice seed pubKey nowMs) = true := by
  simp only [storedIdentityValid, freshDevice]
  rw [base64URL_roundtrip pubKey hb]
  simp [bne_iff_ne, deviceIDFromPubKey, sha256Hex_ne_empty]

/-- C3: for any stored identity file that fails the integrity check
(deviceId ≠ hash(publicKey), or malformed key material), loadOrCreate
returns a freshly generated identity and persists it; every identity it
returns satisfies the deviceId = hash(publicKey) check, so the persisted
identity passes the same check — and is returned unchanged — when reloaded
immediately. -/
theorem loadOrCreate_regenerates
    (id0 : deviceIdentity) (seed pubKey : List Nat) (nowMs : Int)
    (stored2 : StoredFile) (seed2 pubKey2 : List Nat) (now2 : Int) (w2 : Bool)
    (hbad : storedIdentityValid id0 = false)
    (hb : ∀ n ∈ pubKey, n < 256)
    (hb2 : ∀ n ∈ pubKey2, n < 256) :
    (loadOrCreateDevice (.parsed id0) seed pubKey nowMs true).identity
        = freshDevice seed pubKey nowMs
  ∧ (loadOrCreateDevice (.parsed id0) seed pubKey nowMs true).fileAfter
        = .parsed (freshDevice seed pubKey nowMs)
  ∧ storedIdentityValid (freshDevice seed pubKey nowMs) = true
  ∧ loadOrCreateDevice (.parsed (freshDevice seed pubKey nowMs))
        seed2 pubKey2 now2 w2
      = ⟨freshDevice seed pubKey nowMs, .parsed (freshDevice seed pubKey nowMs),
         none⟩
  ∧ storedIdentityValid
      (loadOrCreateDevice stored2 seed2 pubKey2 now2 w2).identity = true := by
  refine ⟨?_, ?_, freshDevice_valid seed pubKey nowMs hb, ?_, ?_⟩
  · simp [loadOrCreateDevice, hbad]
  · simp [loadOrCreateDevice, hbad]
  · simp [loadOrCreateDevice, freshDevice_valid seed pubKey nowMs hb]
  · cases stored2 with
    | parsed idp =>
      cases hv : storedIdentityValid idp with
      | true => simp [loadOrCreateDevice, hv]
      | false => simp [loadOrCreateDevice, hv,
          freshDevice_valid seed2 pubKey2 now2 hb2]
    | absent => simp [loadOrCreateDevice, freshDevice_valid seed2 pubKey2 now2 hb2]
    | unparsable =>
        simp [loadOrCreateDevice, freshDevice_valid seed2 pubKey2 now2 hb2]

/-- Witness for C3: a stored file whose deviceId does not match the hash of
its public key is regenerated into a valid, persisted identity. -/
theorem loadOrCreate_regenerates_witness :
    storedIdentityValid ⟨1, "bogus", base64URLEncode [7], base64URLEncode [9], 0⟩
        = false
  ∧ (∀ n ∈ ([1, 2] : List Nat), n < 256)
  ∧ (loadOrCreateDevice (.parsed ⟨1, "bogus", base64URLEncode [7],
        base64URLEncode [9], 0⟩) (List.replicate 32 0) [1, 2] 5 true).identity
      = freshDevice (List.replicate 32 0) [1, 2] 5
  ∧ (loadOrCreateDevice (.parsed ⟨1, "bogus", base64URLEncode [7],
        base64URLEncode [9], 0⟩) (List.replicate 32 0) [1, 2] 5 true).fileAfter
      = .parsed (freshDevice (List.replicate 32 0) [1, 2] 5)
  ∧ storedIdentityValid (freshDevice (List.replicate 32 0) [1, 2] 5) = true := by
  have h := loadOrCreate_regenerates
    ⟨1, "bogus", base64URLEncode [7], base64URLEncode [9], 0⟩
    (List.replicate 32 0) [1, 2] 5 .absent (List.replicate 32 0) [1, 2] 5 true
    (by decide) (by decide) (by decide)
  exact ⟨by decide, by decide, h.1, h.2.1, h.2.2.1⟩

/-- C2: sign produces the signature over exactly the pipe-delimited payload
with fields v2, deviceId, client id "cli", client mode "cli", role,
comma-joined scopes, the returned signed-at timestamp, token, nonce — and
verifying that signature against the payload rebuilt with the returned
signedAt succeeds under the identity's public key. -/
theorem sign_payload_and_verify
    (id : deviceIdentity) (nonce token role : String) (scopes : List String)
    (signedAtMs : Int) (privBytes pubBytes : List Nat)
    (hpriv : base64URLDecode id.privateKey = some privBytes)
    (hpub : privBytes.drop 32 = pubBytes)
    (hb : ∀ n ∈ privBytes, n < 256) :
    deviceIdentity.sign id nonce token role scopes signedAtMs
      = some (base64URLEncode (ed25519Sign privBytes
          (signPayload id.deviceID role (String.intercalate "," scopes)
            (toString signedAtMs) token nonce)), signedAtMs)
  ∧ base64URLDecode (base64URLEncode (ed25519Sign privBytes
        (signPayload id.deviceID role (String.intercalate "," scopes)
          (toString signedAtMs) token nonce)))
      = some (ed25519Sign privBytes
          (signPayload id.deviceID role (String.intercalate "," scopes)
            (toString signedAtMs) token nonce))
  ∧ ed25519Verify pubBytes
      (signPayload id.deviceID role (String.intercalate "," scopes)
        (toString signedAtMs) token nonce)
      (ed25519Sign privBytes
        (signPayload id.deviceID role (String.intercalate "," scopes)
          (toString signedAtMs) token nonce)) = true := by
  refine ⟨?_, ?_, ?_⟩
  · unfold deviceIdentity.sign
    rw [hpriv]
  · refine base64URL_roundtrip _ ?_
    intro n hn
    unfold ed25519Sign at hn
    rcases List.mem_append.mp hn with hdrop | hstr
    · exact hb n (List.mem_of_mem_drop hdrop)
    · unfold strBytes at hstr
      rcases List.mem_map.mp hstr with ⟨c, _, rfl⟩
      exact Nat.mod_lt _ (by omega)
  · unfold ed25519Verify ed25519Sign
    rw [hpub]
    exact beq_self_eq_true _

/-- Witness for C2 on a concrete keypair (seed = 32 zero bytes, public key
`[1, 2]`). -/
theorem sign_payload_and_verify_witness :
    base64URLDecode
        ((freshDevice (List.replicate 32 0) [1, 2] 0).privateKey)
        = some (List.replicate 32 0 ++ [1, 2])
  ∧ (List.replicate 32 0 ++ [1, 2]).drop 32 = [1, 2]
  ∧ (∀ n ∈ List.replicate 32 0 ++ [1, 2], n < 256)
  ∧ ed25519Verify [1, 2]
      (signPayload (freshDevice (List.replicate 32 0) [1, 2] 0).deviceID
        "operator" (String.intercalate "," ["operator.admin"])
        (toString (1000 : Int)) "tok" "abc")
      (ed25519Sign (List.replicate 32 0 ++ [1, 2])
        (signPayload (freshDevice (List.replicate 32 0) [1, 2] 0).deviceID
          "operator" (String.intercalate "," ["operator.admin"])
          (toString (1000 : Int)) "tok" "abc")) = true := by
  have h := sign_payload_and_verify
    (freshDevice (List.replicate 32 0) [1, 2] 0) "abc" "tok" "operator"
    ["operator.admin"] 1000 (List.replicate 32 0 ++ [1, 2]) [1, 2]
    (by decide) (by decide) (by decide)
  exact ⟨by decide, by decide, by decide, h.2.2⟩

/-- C8 counterexample: at a concrete failed persistence write the returned
error is nil — the identity is returned, but the failure is silently
discarded rather than reported upward. -/
theorem persist_failure_silent :
    (loadOrCreateDevice .absent (List.replicate 32 0) [1, 2] 0 false).errOut
        = none
  ∧ (loadOrCreateDevice .absent (List.replicate 32 0) [1, 2] 0 false).identity
        = freshDevice (List.replicate 32 0) [1, 2] 0
  ∧ (loadOrCreateDevice .absent (List.replicate 32 0) [1, 2] 0 false).fileAfter
        = .absent :=
  ⟨rfl, rfl, rfl⟩

/-- C8 (amended): when persisting a newly generated identity fails,
loadOrCreate still returns the fresh identity (usable in-memory, non-fatal
to connection) and returns no error: the write failure is silently
discarded, leaving the old file state in place, and nothing is reported to
the caller. -/
theorem persist_failure_nonfatal
    (stored : StoredFile) (seed pubKey : List Nat) (nowMs : Int)
    (hregen : ∀ idp, stored = .parsed idp → storedIdentityValid idp = false) :
    (loadOrCreateDevice stored seed pubKey nowMs false).identity
        = freshDevice seed pubKey nowMs
  ∧ (loadOrCreateDevice stored seed pubKey nowMs false).errOut = none
  ∧ (loadOrCreateDevice stored seed pubKey nowMs false).fileAfter = stored := by
  cases stored with
  | parsed idp =>
      have hv := hregen idp rfl
      refine ⟨?_, ?_, ?_⟩ <;> simp [loadOrCreateDevice, hv]
  | absent => exact ⟨rfl, rfl, rfl⟩
  | unparsable => exact ⟨rfl, rfl, rfl⟩

/-- Witness for C8 (amended) at a concrete absent file and failing write. -/
theorem persist_failure_nonfatal_witness :
    (∀ idp, StoredFile.absent = StoredFile.parsed idp →
        storedIdentityValid idp = false)
  ∧ (loadOrCreateDevice .absent [3] [4] 9 false).identity = freshDevice [3] [4] 9
  ∧ (loadOrCreateDevice .absent [3] [4] 9 false).errOut = none := by
  have h := persist_failure_nonfatal .absent [3] [4] 9
    (fun _ hcontra => StoredFile.noConfusion hcontra)
  refine ⟨?_, h.1, h.2.1⟩
  intro idp hcontra
  exact StoredFile.noConfusion hcontra

/-! ## Handshake and event dispatch — the gateway `Client` -/

/-- The params object of the `connect` request built by
`Client.sendHandshake`. -/
def handshakeParams (token : String) : List (String × JVal) :=
  [("role", .str "operator"),
   ("scopes", .arr [.str "operator.admin", .str "operator.approvals",
                    .str "operator.pairing"]),
   ("auth", .obj [("token", .str token)]),
   ("client", .obj [("id", .str "clawchat-cli"), ("version", .str "dev"),
                    ("platform", .str "cli"), ("mode", .str "cli")]),
   ("minProtocol", .num 3),
   ("maxProtocol", .num 3)]

/-- The full request frame sent by `Client.sendHandshake`.  The `nonce`
parameter mirrors the Go function's signature; the body never uses it. -/
def sendHandshakeFrame (nonce : String) (id : String) (token : String) :
    List (String × JVal) :=
  [("type", .str "req"), ("id", .str id), ("method", .str "connect"),
   ("params", .obj (handshakeParams token))]

/-- The event payload extracted by `Client.handleEvent` (a nil payload
becomes an empty object). -/
def payloadOf (frame : List (String × JVal)) : List (String × JVal) :=
  ((lookupField frame "payload").bind JVal.asObj).getD []

/-- The action `Client.handleEvent` takes on an `event` frame. -/
inductive EventAction where
  | sendHandshake (nonce : String)
  | emitEvent (event : String) (payload : List (String × JVal))
deriving Repr

/-- `Client.handleEvent`: a `connect.challenge` event triggers the
asynchronous handshake call with the payload's nonce; any other event is
forwarded verbatim to the registered handler. -/
def handleEvent (frame : List (String × JVal)) : EventAction :=
  if getStr frame "event" = "connect.challenge" then
    .sendHandshake (getStr (payloadOf frame) "nonce")
  else
    .emitEvent (getStr frame "event") (payloadOf frame)

/-- C1 counterexample: the `connect` request built for nonce "n1" is
byte-identical to the one built for nonce "n2" — nothing in the request
depends on the challenge nonce, so it cannot contain a device signature
over the nonce — and the params' keys are exactly role, scopes, auth,
client, minProtocol, maxProtocol, with no signature field and no call to
the identity's sign. -/
theorem sendHandshake_unsigned :
    sendHandshakeFrame "n1" "cc-1" "tok" = sendHandshakeFrame "n2" "cc-1" "tok"
  ∧ (handshakeParams "tok").map Prod.fst
      = ["role", "scopes", "auth", "client", "minProtocol", "maxProtocol"]
  ∧ List.lookup "signature" (handshakeParams "tok") = none :=
  ⟨rfl, rfl, rfl⟩

/-- C1 (amended): for every challenge event received during the handshake,
the client issues a `connect` call whose params carry role "operator", the
requested scopes, the bearer token under auth, client identification
metadata, and minProtocol = maxProtocol = 3; the call carries no device
signature (the device identity's sign is never invoked). -/
theorem handshake_on_challenge
    (frame : List (String × JVal)) (nonce id token : String)
    (hev : getStr frame "event" = "connect.challenge")
    (hnonce : getStr (payloadOf frame) "nonce" = nonce) :
    handleEvent frame = EventAction.sendHandshake nonce
  ∧ getStr (sendHandshakeFrame nonce id token) "type" = "req"
  ∧ getStr (sendHandshakeFrame nonce id token) "method" = "connect"
  ∧ lookupField (sendHandshakeFrame nonce id token) "params"
      = some (JVal.obj (handshakeParams token))
  ∧ lookupField (handshakeParams token) "role" = some (JVal.str "operator")
  ∧ lookupField (handshakeParams token) "scopes"
      = some (JVal.arr [JVal.str "operator.admin", JVal.str "operator.approvals",
                        JVal.str "operator.pairing"])
  ∧ lookupField (handshakeParams token) "auth"
      = some (JVal.obj [("token", JVal.str token)])
  ∧ lookupField (handshakeParams token) "client"
      = some (JVal.obj [("id", JVal.str "clawchat-cli"),
                        ("version", JVal.str "dev"),
                        ("platform", JVal.str "cli"),
                        ("mode", JVal.str "cli")])
  ∧ lookupField (handshakeParams token) "minProtocol" = some (JVal.num 3)
  ∧ lookupField (handshakeParams token) "maxProtocol" = some (JVal.num 3)
  ∧ List.lookup "signature" (handshakeParams token) = none := by
  refine ⟨?_, rfl, rfl, rfl, rfl, rfl, rfl, rfl, rfl, rfl, rfl⟩
  simp [handleEvent, hev, hnonce]

/-- Witness for C1 (amended) on a concrete challenge frame. -/
theorem handshake_on_challenge_witness :
    getStr [("type", JVal.str "event"), ("event", JVal.str "connect.challenge"),
        ("payload", JVal.obj [("nonce", JVal.str "abc")])] "event"
      = "connect.challenge"
  ∧ getStr (payloadOf [("type", JVal.str "event"),
        ("event", JVal.str "connect.challenge"),
        ("payload", JVal.obj [("nonce", JVal.str "abc")])]) "nonce" = "abc"
  ∧ handleEvent [("type", JVal.str "event"),
        ("event", JVal.str "connect.challenge"),
        ("payload", JVal.obj [("nonce", JVal.str "abc")])]
      = EventAction.sendHandshake "abc"
  ∧ getStr (sendHandshakeFrame "abc" "cc-1" "tok") "method" = "connect" :=
  have h := handshake_on_challenge
    [("type", JVal.str "event"), ("event", JVal.str "connect.challenge"),
     ("payload", JVal.obj [("nonce", JVal.str "abc")])] "abc" "cc-1" "tok"
    rfl rfl
  ⟨rfl, rfl, h.1, h.2.2.1⟩

/-! ## Call correlation — the gateway `Client`'s pending table

`Client.pending : map[string]chan response` maps request identifiers to
single-use buffered channels.  A channel is modelled by a slot identifier;
an operation's effect on channels is an explicit list of
`(slot, CallResult)` deliveries. -/

/-- A pending call's response channel, by identity. -/
abbrev Slot := Nat

/-- The `response` struct sent on a pending channel: a payload or an
error. -/
inductive CallResult where
  | payload (p : List (String × JVal))
  | err (msg : String)
deriving Repr

/-- The outstanding-request table guarded by `pendingMu`.  Go map keys are
unique; theorems carry that as a `Nodup` hypothesis on the key list. -/
structure PendingTable where
  pending : List (String × Slot)
deriving Repr

/-- Parsing of a `res` frame into the `response` value sent on the pending
channel (`Client.handleResponse`): `ok` true yields the payload (nil
becomes an empty object), otherwise the error message under
`error.message`, defaulting to "unknown error". -/
def parseResponse (frame : List (String × JVal)) : CallResult :=
  let ok2 := ((lookupField frame "ok").bind JVal.asBool).getD false
  if ok2 then
    CallResult.payload (((lookupField frame "payload").bind JVal.asObj).getD [])
  else
    CallResult.err ((((lookupField frame "error").bind JVal.asObj).bind
      (fun errObj => (lookupField errObj "message").bind JVal.asString)).getD
        "unknown error")

/-- `Client.handleResponse`: look up the frame's id in the pending table;
on a hit, remove that entry and deliver the parsed response to its slot;
otherwise drop the frame with no effect. -/
def handleResponse (t : PendingTable) (frame : List (String × JVal)) :
    PendingTable × List (Slot × CallResult) :=
  match List.lookup (getStr frame "id") t.pending with
  | some ch =>
      (⟨t.pending.eraseP (fun e => e.1 == getStr frame "id")⟩,
       [(ch, parseResponse frame)])
  | none => (t, [])

/-- `Client.rejectAllPending`: the shutdown loop — deliver the error to
each pending channel and delete its entry, one entry at a time. -/
def rejectAllPending (t : PendingTable) (reason : String) :
    PendingTable × List (Slot × CallResult) :=
  t.pending.foldl
    (fun acc e =>
      (⟨acc.1.pending.eraseP (fun x => x.1 == e.1)⟩,
       acc.2 ++ [(e.2, CallResult.err reason)]))
    (t, [])

/-- Connection status (`Status` constants in the client). -/
inductive Status where
  | disconnected
  | connecting
  | handshaking
  | connected
  | error
deriving Repr, DecidableEq

/-- The client state touched by `Close`: status, pending table, and whether
the `sync.Once` has fired (the `done` channel is closed). -/
structure ClientState where
  status : Status
  table : PendingTable
  closed : Bool
deriving Repr

/-- `Client.Close`: idempotent via `sync.Once`; closes `done` and the
socket, sets status `disconnected`, and rejects every pending call with
"client closed".  Returns the new state and the deliveries made. -/
def closeClient (st : ClientState) : ClientState × List (Slot × CallResult) :=
  if st.closed then (st, [])
  else
    let r := rejectAllPending st.table "client closed"
    (⟨Status.disconnected, r.1, true⟩, r.2)

/-- A key absent from the key list is not found by `List.lookup`. -/
lemma lookup_none_of_not_mem_keys {l : List (String × Slot)} {a : String}
    (h : a ∉ l.map Prod.fst) : List.lookup a l = none := by
  induction l with
  | nil => rfl
  | cons e rest ih =>
    simp only [List.map_cons, List.mem_cons, not_or] at h
    have hne : (a == e.1) = false := beq_false_of_ne h.1
    simp [List.lookup, hne, ih h.2]

/-- With unique keys, membership determines the lookup result. -/
lemma lookup_of_mem_nodup {l : List (String × Slot)} {a : String} {b : Slot}
    (hnd : (l.map Prod.fst).Nodup) (hmem : (a, b) ∈ l) :
    List.lookup a l = some b := by
  induction l with
  | nil => cases hmem
  | cons e rest ih =>
    rcases List.mem_cons.mp hmem with heq | hmem2
    · rw [← heq]
      simp [List.lookup]
    · have hkey : e.1 ∉ rest.map Prod.fst := (List.nodup_cons.mp hnd).1
      have hne : e.1 ≠ a := by
        intro hcontra
        exact hkey (hcontra ▸ List.mem_map.mpr ⟨(a, b), hmem2, rfl⟩)
      have hbeq : (a == e.1) = false := beq_false_of_ne (Ne.symm hne)
      simp [List.lookup, hbeq, ih (List.nodup_cons.mp hnd).2 hmem2]

/-- With unique keys, erasing the entry for a key removes it from lookup
range. -/
lemma lookup_eraseP_none {l : List (String × Slot)} {a : String}
    (hnd : (l.map Prod.fst).Nodup) :
    List.lookup a (l.eraseP (fun x => x.1 == a)) = none := by
  induction l with
  | nil => rfl
  | cons e rest ih =>
    by_cases hea : e.1 = a
    · rw [List.eraseP_cons_of_pos (by simpa using hea)]
      refine lookup_none_of_not_mem_keys ?_
      have := (List.nodup_cons.mp hnd).1
      simpa [hea] using this
    · rw [List.eraseP_cons_of_neg (by simpa using hea)]
      have hbeq : (a == e.1) = false := beq_false_of_ne (Ne.symm hea)
      simp [List.lookup, hbeq, ih (List.nodup_cons.mp hnd).2]

/-- C4: an incoming response frame is delivered to exactly the pending call
whose registered identifier matches the frame's id, and that slot is
removed while every other pending entry is untouched; a frame whose id has
no registered slot is dropped with no effect.  In particular a response for
call A (id `idA`) resolves A's slot and never another call's. -/
theorem handleResponse_correlation
    (t : PendingTable) (frame frame2 : List (String × JVal))
    (idA : String) (chA : Slot)
    (hnd : (t.pending.map Prod.fst).Nodup)
    (hmem : (idA, chA) ∈ t.pending)
    (hid : getStr frame "id" = idA)
    (hnomatch : List.lookup (getStr frame2 "id") t.pending = none) :
    (handleResponse t frame).2 = [(chA, parseResponse frame)]
  ∧ List.lookup idA (handleResponse t frame).1.pending = none
  ∧ (∀ idB chB, (idB, chB) ∈ t.pending → idB ≠ idA →
      (idB, chB) ∈ (handleResponse t frame).1.pending)
  ∧ handleResponse t frame2 = (t, []) := by
  have hlook : List.lookup idA t.pending = some chA := lookup_of_mem_nodup hnd hmem
  have hfst : handleResponse t frame
      = (⟨t.pending.eraseP (fun e => e.1 == idA)⟩, [(chA, parseResponse frame)]) := by
    unfold handleResponse
    rw [hid, hlook]
  refine ⟨by rw [hfst], ?_, ?_, ?_⟩
  · rw [hfst]
    exact lookup_eraseP_none hnd
  · intro idB chB hmemB hneB
    rw [hfst]
    exact (List.mem_eraseP_of_neg (by simpa using hneB)).mpr hmemB
  · unfold handleResponse
    rw [hnomatch]

/-- Witness for C4: two pending calls `cc-1`, `cc-2`; a response for `cc-1`
resolves slot 0 only and leaves `cc-2` registered; a response for the
unknown id `cc-9` is dropped. -/
theorem handleResponse_correlation_witness :
    ((([("cc-1", 0), ("cc-2", 1)] : List (String × Slot)).map Prod.fst).Nodup
      ∧ (("cc-1", 0) ∈ ([("cc-1", 0), ("cc-2", 1)] : List (String × Slot)))
      ∧ getStr [("type", JVal.str "res"), ("id", JVal.str "cc-1"),
          ("ok", JVal.bool true), ("payload", JVal.obj [("type", JVal.str "hello-ok")])]
          "id" = "cc-1"
      ∧ List.lookup (getStr [("id", JVal.str "cc-9")] "id")
          ([("cc-1", 0), ("cc-2", 1)] : List (String × Slot)) = none)
  ∧ (handleResponse ⟨[("cc-1", 0), ("cc-2", 1)]⟩
      [("type", JVal.str "res"), ("id", JVal.str "cc-1"),
       ("ok", JVal.bool true), ("payload", JVal.obj [("type", JVal.str "hello-ok")])]).2
      = [(0, parseResponse
          [("type", JVal.str "res"), ("id", JVal.str "cc-1"),
           ("ok", JVal.bool true), ("payload", JVal.obj [("type", JVal.str "hello-ok")])])]
  ∧ ("cc-2", 1) ∈ (handleResponse ⟨[("cc-1", 0), ("cc-2", 1)]⟩
      [("type", JVal.str "res"), ("id", JVal.str "cc-1"),
       ("ok", JVal.bool true), ("payload", JVal.obj [("type", JVal.str "hello-ok")])]).1.pending
  ∧ handleResponse ⟨[("cc-1", 0), ("cc-2", 1)]⟩ [("id", JVal.str "cc-9")]
      = (⟨[("cc-1", 0), ("cc-2", 1)]⟩, []) := by
  have h := handleResponse_correlation ⟨[("cc-1", 0), ("cc-2", 1)]⟩
    [("type", JVal.str "res"), ("id", JVal.str "cc-1"),
     ("ok", JVal.bool true), ("payload", JVal.obj [("type", JVal.str "hello-ok")])]
    [("id", JVal.str "cc-9")] "cc-1" 0
    (by decide) (by decide) rfl rfl
  exact ⟨⟨by decide, by decide, rfl, rfl⟩, h.1,
    h.2.2.1 "cc-2" 1 (by decide) (by decide), h.2.2.2⟩

/-- Unfolding of the `rejectAllPending` fold: the deliveries are the table
entries in order, and the table component is the start table with each
iterated key erased. -/
lemma rejectAll_foldl (reason : String) (l : List (String × Slot))
    (t : PendingTable) (ds : List (Slot × CallResult)) :
    l.foldl
      (fun acc e =>
        (⟨acc.1.pending.eraseP (fun x => x.1 == e.1)⟩,
         acc.2 ++ [(e.2, CallResult.err reason)]))
      (t, ds)
    = (⟨l.foldl (fun p e => p.eraseP (fun x => x.1 == e.1)) t.pending⟩,
       ds ++ l.map (fun e => (e.2, CallResult.err reason))) := by
  induction l generalizing t ds with
  | nil => simp
  | cons e rest ih =>
    rw [List.foldl_cons, ih, List.foldl_cons]
    simp

/-- Iterating over a table while erasing each visited key empties it. -/
lemma erase_each_self (l : List (String × Slot)) :
    l.foldl (fun p e => p.eraseP (fun x => x.1 == e.1)) l = [] := by
  have haux : ∀ (l2 : List (String × Slot)) (e : String × Slot),
      ((e :: l2).eraseP (fun x => x.1 == e.1)) = l2 := by
    intro l2 e
    exact List.eraseP_cons_of_pos (by simp)
  induction l with
  | nil => rfl
  | cons e rest ih =>
    rw [List.foldl_cons, haux rest e]
    exact ih

/-- C5: closing the client fails every outstanding pending call with the
"client closed" error and removes its slot; after `Close` the pending table
is empty and each previously pending slot has received the error, so no
caller is left unresolved. -/
theorem close_rejects_all_pending (st : ClientState) (h : st.closed = false) :
    (closeClient st).1.table.pending = []
  ∧ (closeClient st).2
      = st.table.pending.map (fun e => (e.2, CallResult.err "client closed"))
  ∧ ∀ e ∈ st.table.pending,
      (e.2, CallResult.err "client closed") ∈ (closeClient st).2 := by
  have hstep : closeClient st
      = (⟨Status.disconnected, (rejectAllPending st.table "client closed").1, true⟩,
         (rejectAllPending st.table "client closed").2) := by
    unfold closeClient
    rw [h]
    simp
  have hr : rejectAllPending st.table "client closed"
      = (⟨[]⟩, st.table.pending.map (fun e => (e.2, CallResult.err "client closed"))) := by
    unfold rejectAllPending
    rw [rejectAll_foldl, erase_each_self]
    simp
  refine ⟨?_, ?_, ?_⟩
  · rw [hstep, hr]
  · rw [hstep, hr]
  · intro e he
    rw [hstep, hr]
    exact List.mem_map.mpr ⟨e, he, rfl⟩

/-- Witness for C5: a client with two pending calls, not yet closed; Close
empties the table and delivers the "client closed" error to both slots. -/
theorem close_rejects_all_pending_witness :
    ((⟨Status.connected, ⟨[("cc-1", 0), ("cc-2", 1)]⟩, false⟩ : ClientState).closed
        = false)
  ∧ (closeClient ⟨Status.connected, ⟨[("cc-1", 0), ("cc-2", 1)]⟩, false⟩).1.table.pending
        = []
  ∧ (closeClient ⟨Status.connected, ⟨[("cc-1", 0), ("cc-2", 1)]⟩, false⟩).2
        = [(0, CallResult.err "client closed"), (1, CallResult.err "client closed")] := by
  have h := close_rejects_all_pending
    ⟨Status.connected, ⟨[("cc-1", 0), ("cc-2", 1)]⟩, false⟩ rfl
  refine ⟨rfl, h.1, ?_⟩
  rw [h.2.1]
  rfl

/-! ## Chat history normalization — `internal/gateway/chat.go` -/

/-- The inner step of `extractContent`'s block loop: a block contributes its
`"text"` field when the block is an object and that field is a string,
otherwise nothing. -/
def blockText : JVal → String
  | .obj b =>
    match List.lookup "text" b with
    | some (.str t) => t
    | _ => ""
  | _ => ""

/-- `extractContent`: convert a content field (string or block list) to a
plain string; any other shape yields `""`. -/
def extractContent : JVal → String
  | .str c => c
  | .arr c => c.foldl (fun out block => out ++ blockText block) ""
  | _ => ""

/-- One element of the decoded `chat.history` payload's `messages` array, as
read into `Client.GetHistory`'s anonymous struct.  The `Timestamp` field is
omitted: its parsing goes through the Go standard library (`time.Parse`,
`time.UnixMilli`) and no claim touches it. -/
structure RawMessage where
  role : String
  content : JVal
deriving Repr

/-- `Message` (chat.go): the normalized chat message.  The `Timestamp`
field is omitted for the same reason as in `RawMessage`. -/
structure Message where
  role : String
  content : String
deriving Repr, DecidableEq

/-- The message-normalization loop of `Client.GetHistory` (chat.go lines
91–115): keep only `user`/`assistant` roles, flatten content, and skip
messages whose flattened content is empty. -/
def getHistoryMessages (raw : List RawMessage) : List Message :=
  raw.foldl
    (fun messages m =>
      if m.role ≠ "user" ∧ m.role ≠ "assistant" then messages
      else
        let content := extractContent m.content
        if content = "" then messages
        else messages ++ [⟨m.role, content⟩])
    []

/-- `GetHistory`'s filtering as claim C7 words it: role filtering and
content flattening only, with no further dropping of entries. -/
def specGetHistory (raw : List RawMessage) : List Message :=
  (raw.filter (fun m => m.role == "user" || m.role == "assistant")).map
    (fun m => ⟨m.role, extractContent m.content⟩)

/-- The GetHistory loop, run from any accumulator, appends exactly the
nonempty-content user/assistant messages in order. -/
lemma getHistory_foldl_eq (raw : List RawMessage) (acc : List Message) :
    raw.foldl
      (fun messages m =>
        if m.role ≠ "user" ∧ m.role ≠ "assistant" then messages
        else
          let content := extractContent m.content
          if content = "" then messages
          else messages ++ [⟨m.role, content⟩])
      acc
    = acc ++ (raw.filter (fun m =>
          (m.role == "user" || m.role == "assistant")
            && extractContent m.content != "")).map
        (fun m => ⟨m.role, extractContent m.content⟩) := by
  induction raw generalizing acc with
  | nil => simp
  | cons m rest ih =>
    rw [List.foldl_cons, List.filter_cons, ih]
    by_cases hrole : m.role ≠ "user" ∧ m.role ≠ "assistant"
    · have hb : ((m.role == "user" || m.role == "assistant")
          && extractContent m.content != "") = false := by
        simp only [Bool.and_eq_false_iff, Bool.or_eq_false_iff, beq_eq_false_iff_ne]
        exact Or.inl ⟨hrole.1, hrole.2⟩
      rw [if_pos hrole, hb]
      simp
    · by_cases hc : extractContent m.content = ""
      · have hb : ((m.role == "user" || m.role == "assistant")
            && extractContent m.content != "") = false := by
          simp [hc]
        rw [if_neg hrole, hb]
        simp [hc]
      · have hb : ((m.role == "user" || m.role == "assistant")
            && extractContent m.content != "") = true := by
          rcases not_and_or.mp hrole with h | h
          · simp [not_not.mp h, hc]
          · simp [not_not.mp h, hc]
        rw [if_neg hrole, hb]
        simp [hc, List.append_assoc]

/-- The characterization of `getHistoryMessages` shared by the history
claims. -/
lemma getHistoryMessages_eq (raw : List RawMessage) :
    getHistoryMessages raw
      = (raw.filter (fun m =>
            (m.role == "user" || m.role == "assistant")
              && extractContent m.content != "")).map
          (fun m => ⟨m.role, extractContent m.content⟩) := by
  simpa using getHistory_foldl_eq raw []

/-- C7 counterexample: a `user` message whose content is the empty string is
a user entry of the payload, yet `GetHistory` omits it, so the output is not
"the user and assistant entries" as the claim states. -/
theorem getHistory_empty_user_dropped :
    getHistoryMessages [⟨"user", JVal.str ""⟩, ⟨"assistant", JVal.str "hi"⟩]
      = [⟨"assistant", "hi"⟩]
  ∧ specGetHistory [⟨"user", JVal.str ""⟩, ⟨"assistant", JVal.str "hi"⟩]
      = [⟨"user", ""⟩, ⟨"assistant", "hi"⟩]
  ∧ ([⟨"assistant", "hi"⟩] : List Message)
      ≠ [⟨"user", ""⟩, ⟨"assistant", "hi"⟩] :=
  ⟨rfl, rfl, by decide⟩

/-- C7 (amended): GetHistory returns exactly the user and assistant entries
whose flattened content is nonempty, in their original order, each with
content flattened uniformly: a string content is used as-is, and a block
sequence yields the concatenation, in order, of every block's `"text"`
field, other block kinds contributing nothing. -/
theorem getHistory_roles_and_flattening :
    (∀ raw : List RawMessage,
      getHistoryMessages raw
        = (raw.filter (fun m =>
              (m.role == "user" || m.role == "assistant")
                && extractContent m.content != "")).map
            (fun m => ⟨m.role, extractContent m.content⟩))
  ∧ (∀ s : String, extractContent (JVal.str s) = s)
  ∧ (∀ blocks : List JVal,
      extractContent (JVal.arr blocks) = String.join (blocks.map blockText)) := by
  refine ⟨getHistoryMessages_eq, fun s => rfl, fun blocks => ?_⟩
  show blocks.foldl (fun out block => out ++ blockText block) "" = _
  rw [String.join, List.foldl_map]

/-- C10: every message whose content flattens to the empty string (empty
string content, empty block list, or blocks with no textual field) is
omitted from GetHistory's result entirely, wherever it occurs. -/
theorem getHistory_drops_empty_content
    (pre post : List RawMessage) (m : RawMessage)
    (h : extractContent m.content = "") :
    getHistoryMessages (pre ++ m :: post) = getHistoryMessages (pre ++ post)
  ∧ extractContent (JVal.str "") = ""
  ∧ extractContent (JVal.arr []) = ""
  ∧ extractContent (JVal.arr [JVal.obj [("type", JVal.str "image")]]) = "" := by
  refine ⟨?_, rfl, rfl, rfl⟩
  rw [getHistoryMessages_eq, getHistoryMessages_eq, List.filter_append,
    List.filter_append, List.filter_cons]
  have hb : ((m.role == "user" || m.role == "assistant")
      && extractContent m.content != "") = false := by
    simp [h]
  rw [hb]
  simp

/-- Witness for C10 at a concrete input. -/
theorem getHistory_drops_empty_content_witness :
    extractContent ((⟨"user", JVal.str ""⟩ : RawMessage).content) = ""
  ∧ getHistoryMessages ([] ++ (⟨"user", JVal.str ""⟩ : RawMessage) :: [])
      = getHistoryMessages ([] ++ []) :=
  ⟨rfl, (getHistory_drops_empty_content [] [] ⟨"user", JVal.str ""⟩ rfl).1⟩

/-- C6: for the headless (ZeroClaw) backend, each `chunk` frame appends its
token to the stream buffer and emits a `delta` whose content is the
cumulative concatenation so far, and a `done` frame with no `full_response`
emits a `final` whose content is the accumulated buffer and resets the
buffer; concretely `chunk "a"`, `chunk "b"`, `done` from an empty buffer
yield delta "a", delta "ab", final "ab". -/
theorem zeroclaw_stream_accumulation :
    (∀ (buf token : String),
      dispatchFrame buf [("type", JVal.str "chunk"), ("content", JVal.str token)]
        = (buf ++ token, [⟨"chat", zcDeltaPayload (buf ++ token)⟩]))
  ∧ (∀ buf : String,
      dispatchFrame buf [("type", JVal.str "done")]
        = ("", [⟨"chat", zcFinalPayload buf⟩]))
  ∧ dispatchFrames ""
      [[("type", JVal.str "chunk"), ("content", JVal.str "a")],
       [("type", JVal.str "chunk"), ("content", JVal.str "b")],
       [("type", JVal.str "done")]]
      = ("", [⟨"chat", zcDeltaPayload "a"⟩, ⟨"chat", zcDeltaPayload "ab"⟩,
              ⟨"chat", zcFinalPayload "ab"⟩]) :=
  ⟨fun _ _ => rfl, fun _ => rfl, rfl⟩

/-- C9: a `tool_call` frame replaces the whole accumulated buffer with the
"[calling <name>…]" indicator (discarding earlier tokens) and emits it as a
delta; a `done` frame with no `full_response` arriving next therefore emits
a final containing only the indicator text. -/
theorem zeroclaw_tool_call_replaces_buffer :
    (∀ (buf name : String),
      dispatchFrame buf [("type", JVal.str "tool_call"), ("name", JVal.str name)]
        = ("[calling " ++ name ++ "…]",
           [⟨"chat", zcDeltaPayload ("[calling " ++ name ++ "…]")⟩]))
  ∧ dispatchFrames "ab"
      [[("type", JVal.str "tool_call"), ("name", JVal.str "search")],
       [("type", JVal.str "done")]]
      = ("", [⟨"chat", zcDeltaPayload "[calling search…]"⟩,
              ⟨"chat", zcFinalPayload "[calling search…]"⟩]) :=
  ⟨fun _ _ => rfl, rfl⟩

end ClawChat
